import Mathlib

/-!
# Verification of the SDFG state / control-flow IR core (`dace/sdfg/state.py`)

A shallow embedding of the data model and algorithms of the repository's
`dace/sdfg/state.py`, together with theorems settling the specification
claims about them.  Each definition is translated from the corresponding
Python source; where a definition abstracts code living outside the provided
sources (e.g. the generic graph container, AST helpers), the doc comment of
the definition says so.
-/

namespace DF

/-- The closed set of dataflow-node kinds appearing in a state
(`dace.sdfg.nodes`): access nodes, code nodes (tasklets, nested SDFGs,
library nodes), scope-entry and scope-exit nodes. -/
inductive NodeKind where
  | access
  | code
  | entry
  | exit
deriving DecidableEq, Repr

/-- A dataflow node: an identity plus its kind.  Python compares nodes by
object identity; the model compares by `id`. -/
structure Node where
  id : Nat
  kind : NodeKind
deriving DecidableEq, Repr

/-- A multi-connector dataflow edge (`MultiConnectorEdge[Memlet]`): source and
destination nodes, optional connector names, and the memlet payload of which
only emptiness (`edge.data.is_empty()`) is consulted by `memlet_path`. -/
structure MEdge where
  eid : Nat
  src : Node
  dst : Node
  srcConn : Option String
  dstConn : Option String
  dataEmpty : Bool
deriving DecidableEq, Repr

/-- A dataflow state, as far as memlet tracking is concerned: its edge list.
`state.in_edges(n)` / `state.out_edges(n)` filter this list. -/
structure DFGraph where
  edges : List MEdge
deriving DecidableEq, Repr

/-- Python's `str.startswith` (used on connector names), computed on the
character list so that proofs can evaluate it. -/
def strStartsWith (s pre : String) : Bool :=
  pre.data.isPrefixOf s.data

/-- Python's slicing `s[n:]` (used as `src_conn[4:]` / `dst_conn[3:]`),
computed on the character list. -/
def strDrop (s : String) (n : Nat) : String :=
  ⟨s.data.drop n⟩

/-- String concatenation (used to build `"IN_" + ...` / `"OUT_" + ...`),
computed on the character list. -/
def strAppend (a b : String) : String :=
  ⟨a.data ++ b.data⟩

/-- `isinstance(n, (nd.CodeNode, nd.AccessNode))` — the loop-termination test
of `memlet_path` (lines 399 and 415). -/
def isLeafNode (n : Node) : Bool :=
  n.kind == NodeKind.access || n.kind == NodeKind.code

/-- `isinstance(n, (nd.EntryNode, nd.ExitNode))`. -/
def isScopeNode (n : Node) : Bool :=
  n.kind == NodeKind.entry || n.kind == NodeKind.exit

/-- `state.in_edges(node)`: all edges whose destination is the node. -/
def DFGraph.inEdges (g : DFGraph) (n : Node) : List MEdge :=
  g.edges.filter (fun e => e.dst.id == n.id)

/-- `state.out_edges(node)`: all edges whose source is the node. -/
def DFGraph.outEdges (g : DFGraph) (n : Node) : List MEdge :=
  g.edges.filter (fun e => e.src.id == n.id)

/-- The first `while` loop of `DataflowGraphView.memlet_path` (lines
396-410): prepend incoming edges until the current edge's source is a code or
access node, tracing `OUT_#` to `IN_#` through scope nodes.  `acc` holds the
already-collected prefix (in path order); a `none` result models the raised
`ValueError` / `StopIteration`, and exhausted fuel models the nontermination
that a malformed graph would cause. -/
def memletPathPrepend (g : DFGraph) : Nat → MEdge → List MEdge → Option (List MEdge)
  | 0, _, _ => none
  | fuel + 1, cur, acc =>
    if isLeafNode cur.src then
      some acc
    else
      match cur.srcConn with
      | none => none
      | some c =>
        if strStartsWith c "OUT_" then
          match (g.inEdges cur.src).find? (fun e => e.dstConn == some (strAppend "IN_" (strDrop c 4))) with
          | none => none
          | some nxt => memletPathPrepend g fuel nxt (nxt :: acc)
        else
          none

/-- The second `while` loop of `memlet_path` (lines 412-427): append outgoing
edges until the current edge's destination is a code or access node, tracing
`IN_#` to `OUT_#`.  A destination connector at a scope node that does not
start with `IN_` is a map-variable connector and `break`s the loop (line
421-422), returning the path collected so far. -/
def memletPathAppend (g : DFGraph) : Nat → MEdge → List MEdge → Option (List MEdge)
  | 0, _, _ => none
  | fuel + 1, cur, acc =>
    if isLeafNode cur.dst then
      some acc
    else
      match cur.dstConn with
      | none => none
      | some c =>
        if ¬ strStartsWith c "IN_" then
          some acc
        else
          match (g.outEdges cur.dst).find? (fun e => e.srcConn == some (strAppend "OUT_" (strDrop c 3))) with
          | none => none
          | some nxt => memletPathAppend g fuel nxt (acc ++ [nxt])

/-- `DataflowGraphView.memlet_path` (lines 378-429).  An edge with no source
connector, no destination connector and an empty memlet is returned as the
one-element path immediately (lines 392-394); otherwise the incoming and
outgoing traces are stitched around the edge. -/
def memletPath (g : DFGraph) (fuel : Nat) (e : MEdge) : Option (List MEdge) :=
  if e.srcConn == none && e.dstConn == none && e.dataEmpty then
    some [e]
  else
    match memletPathPrepend g fuel e [], memletPathAppend g fuel e [] with
    | some pre, some post => some (pre ++ e :: post)
    | _, _ => none

/-- `mm.MemletTree`, restricted to the fields `memlet_tree` constructs: the
edge of a node and its list of children.  The Python object also carries a
parent pointer and a `downwards` flag that do not influence which edges end
up in the tree. -/
inductive MTree where
  | node (edge : MEdge) (children : List MTree)

mutual

/-- The final `traverse` of `memlet_tree` (lines 497-507): preorder search for
the node whose edge is the queried edge. -/
def mtreeFind (target : MEdge) : MTree → Option MTree
  | .node e cs =>
    if e = target then some (.node e cs) else mtreeFindList target cs

def mtreeFindList (target : MEdge) : List MTree → Option MTree
  | [] => none
  | c :: rest =>
    match mtreeFind target c with
    | some r => some r
    | none => mtreeFindList target rest

end

mutual

/-- All edges of a memlet tree, in preorder. -/
def mtreeEdges : MTree → List MEdge
  | .node e cs => e :: mtreeEdgesList cs

def mtreeEdgesList : List MTree → List MEdge
  | [] => []
  | c :: rest => mtreeEdges c ++ mtreeEdgesList rest

end

/-- The edge at the root of a memlet tree. -/
def rootEdge : MTree → MEdge
  | .node e _ => e

end DF

namespace RW

/-- An index subset, modelled as a one-dimensional index interval; the source
works with `dace.subsets.Subset` objects (external to the provided sources)
through the single operation `covers`. -/
structure Subset where
  lo : Nat
  hi : Nat
deriving DecidableEq, Repr

/-- `Subset.covers` (in `dace/subsets.py`, external to the provided sources):
on intervals, `a` covers `b` iff `b`'s range lies inside `a`'s. -/
def Subset.covers (a b : Subset) : Bool :=
  decide (a.lo ≤ b.lo) && decide (b.hi ≤ a.hi)

/-- The memlet fields consulted by `_read_and_write_sets`: the data-container
name, the accessed subset, the source/destination subsets used by the
covering test, and `is_empty()`. -/
structure Memlet where
  data : String
  subset : Subset
  srcSubset : Subset
  dstSubset : Subset
  isEmpty : Bool
deriving DecidableEq, Repr

/-- One node of a concurrent subgraph together with its incident memlets
(`sg.in_edges(n)` / `sg.out_edges(n)`).  Only access nodes are considered by
`_read_and_write_sets` (line 759), hence `isAccess`. -/
structure SGNode where
  isAccess : Bool
  data : String
  inEdges : List Memlet
  outEdges : List Memlet
deriving DecidableEq, Repr

/-- A dataflow state, as consumed by `_read_and_write_sets` (lines 744-788):
its decomposition into maximal concurrently-executable subgraphs
(`utils.concurrent_subgraphs`, external to the provided sources), each listed
in the order produced by `utils.dfs_topological_sort`. -/
abbrev StateSubgraphs := List (List SGNode)

/-- The out-edge filter of `_read_and_write_sets` (lines 762-768): an
outgoing memlet is removed iff some incoming memlet writes the same data with
a destination subset covering the outgoing source subset. -/
def filteredOutEdges (n : SGNode) : List Memlet :=
  n.outEdges.filter
    (fun o => !(n.inEdges.any (fun i => i.data == o.data && i.dstSubset.covers o.srcSubset)))

/-- A node puts its container into the per-subgraph write dictionary iff it is
an access node with some non-empty incoming memlet (lines 770-775). -/
def nodeWrites (n : SGNode) : Bool :=
  n.isAccess && n.inEdges.any (fun i => !i.isEmpty)

/-- A node puts its container into the per-subgraph read dictionary iff it is
an access node with some non-empty outgoing memlet that survives the
write-masking filter (lines 776-780). -/
def nodeReads (n : SGNode) : Bool :=
  n.isAccess && (filteredOutEdges n).any (fun o => !o.isEmpty)

/-- The data containers appearing as keys of one subgraph's read
dictionary. -/
def sgReadSet (sg : List SGNode) : Finset String :=
  sg.foldl (fun acc n => if nodeReads n then insert n.data acc else acc) ∅

/-- The data containers appearing as keys of one subgraph's write
dictionary. -/
def sgWriteSet (sg : List SGNode) : Finset String :=
  sg.foldl (fun acc n => if nodeWrites n then insert n.data acc else acc) ∅

/-- The read half of `read_and_write_sets` (lines 781-798): the union of the
per-subgraph read dictionaries' key sets. -/
def readSet (st : StateSubgraphs) : Finset String :=
  st.foldl (fun acc sg => acc ∪ sgReadSet sg) ∅

/-- The write half of `read_and_write_sets`. -/
def writeSet (st : StateSubgraphs) : Finset String :=
  st.foldl (fun acc sg => acc ∪ sgWriteSet sg) ∅

end RW

namespace SC

/-- The failures `scope_dict` / `scope_children` can raise (lines 579-591):
the `ValueError` naming the offending state and the cyclic nodes, and the two
internal-consistency `RuntimeError`s. -/
inductive ScopeError where
  | cyclic (stateLabel : String) (cycles : List (List Nat))
  | leftoverQueue (eq : List Nat)
  | notProcessed (leftover : List Nat)
deriving DecidableEq, Repr

/-- `DataflowGraphView.scope_dict` (lines 569-599) on a cache miss, with the
breadth-first traversal `_scope_dict_inner` (in `dace/sdfg/scope.py`, external
to the provided sources) abstracted by its outputs: `result`, the
node-to-parent assignment it filled in, and `eq`, its leftover node queue.
`cycles` is the output of `self.find_cycles()` (generic graph code), `nodes`
the state's node list and `label` its label. -/
def scopeDictValidated (label : String) (validate : Bool) (nodes : List Nat)
    (result : List (Nat × Option Nat)) (eq : List Nat) (cycles : List (List Nat)) :
    Except ScopeError (List (Nat × Option Nat)) :=
  if validate && !eq.isEmpty then
    if !cycles.isEmpty then .error (.cyclic label cycles)
    else .error (.leftoverQueue eq)
  else if validate && result.length != nodes.length then
    if !cycles.isEmpty then .error (.cyclic label cycles)
    else .error (.notProcessed (nodes.filter (fun n => !(result.any (fun p => p.1 == n)))))
  else .ok result

end SC

namespace CF

/-- The closed set of control-flow block kinds: plain dataflow states, the
three terminator blocks, and (as a placeholder node inside a parent graph) a
loop region. -/
inductive BlockKind where
  | state
  | breakBlock
  | continueBlock
  | returnBlock
  | loopRegion
deriving DecidableEq, Repr

/-- A control-flow block as a node of a region graph.  Python compares blocks
by object identity; the model gives every block a unique `id`. -/
structure Block where
  id : Nat
  label : String
  kind : BlockKind
deriving DecidableEq, Repr

/-- An inter-state edge condition: the always-true default of
`InterstateEdge()`, a condition expression (`CodeBlock(cond_expr)`), or its
negation (`astutils.negate_expr`, external to the provided sources, kept
symbolic). -/
inductive Cond where
  | always
  | expr (s : String)
  | negExpr (s : String)
deriving DecidableEq, Repr

/-- An inter-state edge: endpoints (by block id), condition, and the
assignments dictionary, kept as (symbol, value-expression) pairs. -/
structure ISEdge where
  src : Nat
  dst : Nat
  cond : Cond
  assignments : List (String × String)
deriving DecidableEq, Repr

/-- A `ControlFlowRegion`: blocks and inter-state edges, the manual start
block override `_start_block` (a node index), the `_cached_start_block`
memo, and whether the region is the top-level SDFG
(`isinstance(self, dace.SDFG)`).  `nextId` supplies fresh block identities
for block creation (Python: object allocation). -/
structure Region where
  blocks : List Block
  edges : List ISEdge
  startBlockIdx : Option Nat
  cachedStartBlock : Option Block
  isSDFG : Bool
  nextId : Nat
deriving DecidableEq, Repr

/-- `self.source_nodes()`: blocks with no incoming edge, in graph order. -/
def sourceNodes (r : Region) : List Block :=
  r.blocks.filter (fun b => !(r.edges.any (fun e => e.dst == b.id)))

/-- The `ControlFlowRegion.start_block` property (lines 2886-2902) on a cache
hit or a fresh computation: the cached block if set, else the unique source
node, else the manually overridden block, else the `ValueError`.  The Python
property also memoizes the value it computed into `_cached_start_block`; the
model returns the value. -/
def startBlock (r : Region) : Except String Block :=
  match r.cachedStartBlock with
  | some b => .ok b
  | none =>
    match sourceNodes r with
    | [b] => .ok b
    | _ =>
      match r.startBlockIdx with
      | some i =>
        match r.blocks.get? i with
        | some b => .ok b
        | none => .error "invalid block index"
      | none =>
        .error "Ambiguous or undefined starting block for ControlFlowGraph"

/-- The `start_block` setter (lines 2904-2913): validates the node index,
then records the override and refreshes the cache. -/
def setStartBlock (r : Region) (blockId : Nat) : Except String Region :=
  if blockId ≥ r.blocks.length then .error "Invalid state ID"
  else .ok { r with startBlockIdx := some blockId, cachedStartBlock := r.blocks.get? blockId }

/-- The label set used by `_ensure_unique_block_name` (line 2621-2624), taken
from the current nodes (its refresh path). -/
def labelsOf (r : Region) : List String :=
  r.blocks.map (fun b => b.label)

/-- `dt.find_new_name` (external to the provided sources): keep the proposed
name when it is unused, else qualify it. -/
def findNewName (proposed : String) (used : List String) : String :=
  if proposed ∈ used then proposed ++ "_0" else proposed

/-- `ControlFlowRegion.add_node` (lines 2626-2652): optionally
uniqueness-qualify the label, append the node, clear the cached start block,
and, when requested, set the start-block override to the new node (which
re-fills the cache with it).  The parent-pointer and sdfg back-reference
assignments are ownership bookkeeping not modelled here. -/
def addNode (r : Region) (node : Block) (isStartBlock : Bool) (ensureUniqueName : Bool) : Region :=
  let node := if ensureUniqueName then { node with label := findNewName node.label (labelsOf r) } else node
  let r := { r with blocks := r.blocks ++ [node], cachedStartBlock := none }
  if isStartBlock then
    { r with startBlockIdx := some (r.blocks.length - 1), cachedStartBlock := some node }
  else r

/-- `ControlFlowRegion.add_edge` (lines 2604-2619): the type checks are
enforced by the model's types; the cached start block is cleared only when
the new edge's destination is the cached block, then the edge is appended
(`super().add_edge`, generic graph container). -/
def addEdge (r : Region) (src dst : Nat) (cond : Cond) (assignments : List (String × String)) : Region :=
  let r :=
    match r.cachedStartBlock with
    | some b => if b.id == dst then { r with cachedStartBlock := none } else r
    | none => r
  { r with edges := r.edges ++ [⟨src, dst, cond, assignments⟩] }

/-- `ControlFlowRegion.add_state` (lines 2654-2663): uniqueness-qualify the
label, create a fresh state block and add it via `add_node`. -/
def addState (r : Region) (label : String) : Block × Region :=
  let lbl := findNewName label (labelsOf r)
  let blk : Block := ⟨r.nextId, lbl, BlockKind.state⟩
  (blk, addNode { r with nextId := r.nextId + 1 } blk false false)

/-- Edge removal, inherited from the generic graph container (external to the
provided sources): deletes the edge, touching no caches. -/
def removeEdge (r : Region) (e : ISEdge) : Region :=
  { r with edges := r.edges.erase e }

/-- Node removal, inherited from the generic graph container (external to the
provided sources; `ControlFlowRegion` defines no override): deletes the block
and its incident edges, touching no caches. -/
def removeNode (r : Region) (nodeId : Nat) : Region :=
  { r with blocks := r.blocks.filter (fun b => b.id != nodeId),
           edges := r.edges.filter (fun e => e.src != nodeId && e.dst != nodeId) }

/-- A statement of a loop init/update `CodeBlock`: either a plain assignment
(`ast.Assign` with a single `Name` target, its value kept as the text
`astutils.unparse` would produce) or any other statement. -/
inductive Stmt where
  | assign (target : String) (value : String)
  | other (text : String)
deriving DecidableEq, Repr

/-- `isinstance(stmt, astutils.ast.Assign)`. -/
def Stmt.isAssign : Stmt → Bool
  | .assign _ _ => true
  | .other _ => false

/-- A `LoopRegion` (lines 2917-2978): its label, its own block graph, the
optional init and update statements, the loop condition expression, and the
inverted flag.  The loop variable is irrelevant to `inline`. -/
structure LoopRegionModel where
  label : String
  body : Region
  initStatement : Option (List Stmt)
  updateStatement : Option (List Stmt)
  loopCondition : String
  inverted : Bool
deriving DecidableEq, Repr

/-- The assignments dictionary built from an init/update statement list
(lines 3062-3065 and 3074-3077): `assignments[target] = unparse(value)`.
This code runs only after the all-assignments precondition check, so
non-assignment statements cannot occur here. -/
def assignmentsOf (stmts : List Stmt) : List (String × String) :=
  stmts.filterMap (fun s => match s with | .assign t v => some (t, v) | .other _ => none)

/-- The all-assignments precondition of `LoopRegion.inline`
(lines 2993-3003). -/
def inlinePreconditionOk (loop : LoopRegionModel) : Bool :=
  (match loop.initStatement with
   | some stmts => stmts.all Stmt.isAssign
   | none => true) &&
  (match loop.updateStatement with
   | some stmts => stmts.all Stmt.isAssign
   | none => true)

/-- `self.out_degree(node)` inside the loop's own graph. -/
def bodyOutDegree (body : Region) (nodeId : Nat) : Nat :=
  (body.edges.filter (fun e => e.src == nodeId)).length

/-- The per-node re-parenting step of `LoopRegion.inline` (lines 3026-3042):
relabel with the loop's label as prefix; break blocks become fresh states
connected to the loop end, continue blocks fresh states connected to the
latch, return blocks fresh states when the parent is an SDFG; every other
block is added to the parent (uniqueness-qualified), remembering sink blocks
for the latch. -/
def inlineMoveBlock (loopLabel : String) (body : Region)
    (acc : Region × List Block × List Block × List (Nat × Block)) (node : Block) :
    Region × List Block × List Block × List (Nat × Block) :=
  let (p, toLatch, toEnd, bmap) := acc
  let node := { node with label := loopLabel ++ "_" ++ node.label }
  match node.kind with
  | .breakBlock =>
    let (newnode, p) := addState p node.label
    (p, toLatch, toEnd ++ [newnode], bmap ++ [(node.id, newnode)])
  | .continueBlock =>
    let (newnode, p) := addState p node.label
    (p, toLatch ++ [newnode], toEnd, bmap ++ [(node.id, newnode)])
  | .returnBlock =>
    if p.isSDFG then
      let (newnode, p) := addState p node.label
      (p, toLatch, toEnd, bmap ++ [(node.id, newnode)])
    else
      let toLatch := if bodyOutDegree body node.id == 0 then toLatch ++ [node] else toLatch
      (addNode p node false true, toLatch, toEnd, bmap)
  | _ =>
    let toLatch := if bodyOutDegree body node.id == 0 then toLatch ++ [node] else toLatch
    (addNode p node false true, toLatch, toEnd, bmap)

/-- `LoopRegion.inline` (lines 2980-3098), inlining the loop (present in the
parent graph as the block with id `rid`) into `parent`.  Returns `none` when
the original would raise (no unambiguous body start block); otherwise the
(success, boilerplate states, resulting parent) triple.  The recursive
inlining of nested non-loop regions (lines 3005-3012) traverses a body whose
block kinds exclude nested regions here, so it finds nothing to do; the
`reset_cfg_list` registry rebuild (lines 3095-3096) is external
bookkeeping. -/
def LoopRegionModel.inline (loop : LoopRegionModel) (parent : Region) (rid : Nat) :
    Option (Bool × Option (Nat × Nat × Nat) × Region) :=
  if inlinePreconditionOk loop then
    match startBlock loop.body with
    | .error _ => none
    | .ok startB =>
      -- Boilerplate states (lines 3014-3018).
      let (initS, p) := addState parent (loop.label ++ "_init")
      let (guardS, p) := addState p (loop.label ++ "_guard")
      let (endS, p) := addState p (loop.label ++ "_end")
      let (latchS, p) := addState p (loop.label ++ "_latch")
      -- Re-parent the loop's blocks (lines 3020-3042).
      let (p, toLatch, toEnd, bmap) :=
        loop.body.blocks.foldl (inlineMoveBlock loop.label loop.body) (p, [], [], [])
      let mapId := fun (i : Nat) =>
        match bmap.find? (fun x => x.1 == i) with
        | some x => x.2.id
        | none => i
      -- Internal loop edges (lines 3044-3048).
      let p := loop.body.edges.foldl
        (fun p e => addEdge p (mapId e.src) (mapId e.dst) e.cond e.assignments) p
      -- Redirect edges entering the loop to the init state (lines 3050-3053).
      let p := (p.edges.filter (fun e => e.dst == rid)).foldl
        (fun p e => removeEdge (addEdge p e.src initS.id e.cond e.assignments) e) p
      -- Redirect edges leaving the loop to leave the end state (lines 3054-3057).
      let p := (p.edges.filter (fun e => e.src == rid)).foldl
        (fun p e => removeEdge (addEdge p endS.id e.dst e.cond e.assignments) e) p
      -- Initialization edge (lines 3059-3069).
      let initAssigns := match loop.initStatement with
        | some stmts => assignmentsOf stmts
        | none => []
      let p := if loop.inverted then addEdge p initS.id startB.id Cond.always initAssigns
               else addEdge p initS.id guardS.id Cond.always initAssigns
      -- Update edge (lines 3071-3078).
      let updateAssigns := match loop.updateStatement with
        | some stmts => assignmentsOf stmts
        | none => []
      let p := addEdge p latchS.id guardS.id Cond.always updateAssigns
      -- Condition-checking edges (lines 3080-3084).
      let p := addEdge p guardS.id endS.id (Cond.negExpr loop.loopCondition) []
      let p := addEdge p guardS.id startB.id (Cond.expr loop.loopCondition) []
      -- Connect sinks and continue blocks to the latch, break blocks to the
      -- end (lines 3086-3091).
      let p := toLatch.foldl (fun p n => addEdge p n.id latchS.id Cond.always []) p
      let p := toEnd.foldl (fun p n => addEdge p n.id endS.id Cond.always []) p
      -- Remove the loop block itself (line 3093; inherited generic removal).
      let p := removeNode p rid
      some (true, some (initS.id, guardS.id, endS.id), p)
  else
    some (false, none, parent)

/-- A node of the scope tree (`dace.sdfg.scope.ScopeTree`): an entry/exit
node pair, identified by node ids. -/
structure ScopeTreeNodeM where
  entry : Option Nat
  exit : Option Nat
deriving DecidableEq, Repr

/-- An `SDFGState` as far as its structure and the four scope caches cleared
by `_clear_scopedict_cache` (lines 522-530) are concerned: dataflow nodes (by
id), dataflow edges (by endpoint ids; connectors and memlets do not influence
the caches), and the caches `_scope_dict_toparent_cached`,
`_scope_dict_tochildren_cached`, `_scope_tree_cached`,
`_scope_leaves_cached`. -/
structure SDFGStateModel where
  nodes : List Nat
  edges : List (Nat × Nat)
  scopeDictToparentCached : Option (List (Nat × Option Nat))
  scopeDictTochildrenCached : Option (List (Nat × List Nat))
  scopeTreeCached : Option (List ScopeTreeNodeM)
  scopeLeavesCached : Option (List ScopeTreeNodeM)
deriving DecidableEq, Repr

/-- `BlockGraphView._clear_scopedict_cache` (lines 522-530). -/
def clearScopedictCache (s : SDFGStateModel) : SDFGStateModel :=
  { s with scopeDictToparentCached := none,
           scopeDictTochildrenCached := none,
           scopeTreeCached := none,
           scopeLeavesCached := none }

/-- `SDFGState.add_node` (lines 1299-1308): after the type check and nested-
SDFG parent fixup, clears the scope caches and appends the node
(`super().add_node`, generic graph container). -/
def stateAddNode (s : SDFGStateModel) (n : Nat) : SDFGStateModel :=
  let s := clearScopedictCache s
  { s with nodes := s.nodes ++ [n] }

/-- `SDFGState.remove_node` (lines 1310-1312): clears the scope caches and
removes the node (the generic removal also drops its incident edges). -/
def stateRemoveNode (s : SDFGStateModel) (n : Nat) : SDFGStateModel :=
  let s := clearScopedictCache s
  { s with nodes := s.nodes.filter (fun m => m != n),
           edges := s.edges.filter (fun e => e.1 != n && e.2 != n) }

/-- `SDFGState.add_edge` (lines 1314-1334): after the type checks and
access-node connector bookkeeping, clears the scope caches and appends the
edge. -/
def stateAddEdge (s : SDFGStateModel) (u v : Nat) : SDFGStateModel :=
  let s := clearScopedictCache s
  { s with edges := s.edges ++ [(u, v)] }

/-- `SDFGState.remove_edge` (lines 1336-1338). -/
def stateRemoveEdge (s : SDFGStateModel) (e : Nat × Nat) : SDFGStateModel :=
  let s := clearScopedictCache s
  { s with edges := s.edges.erase e }

/-- `SDFGState.remove_edge_and_connectors` (lines 1340-1346); the connector
removal on the endpoint nodes is bookkeeping outside this model. -/
def stateRemoveEdgeAndConnectors (s : SDFGStateModel) (e : Nat × Nat) : SDFGStateModel :=
  let s := clearScopedictCache s
  { s with edges := s.edges.erase e }

/-- All four scope caches of a state are empty. -/
def scopeCachesCleared (s : SDFGStateModel) : Prop :=
  s.scopeDictToparentCached = none ∧ s.scopeDictTochildrenCached = none ∧
  s.scopeTreeCached = none ∧ s.scopeLeavesCached = none

end CF

namespace SY

/-- An inter-state edge as seen by the liveness analysis: endpoints (by block
id), the assignment keys (`e.data.assignments.keys()`), and the edge's free
symbols (`e.data.used_symbols(all_symbols)`, computed in
`dace/sdfg/sdfg.py`'s `InterstateEdge`, external to the provided sources, so
annotated on the edge). -/
structure SymEdge where
  src : Nat
  dst : Nat
  assignKeys : List String
  freeSyms : List String
deriving DecidableEq, Repr

/-- A control-flow block as seen by the liveness analysis.  A dataflow state
carries the result of its `used_symbols` query (`DataflowGraphView.
used_symbols`, a separate dataflow-level analysis, annotated here); a nested
control-flow region carries its own blocks and edges (and its SDFG symbol
parameters when it is an SDFG); a loop region additionally carries the loop
variable and the free-symbol sets of its init/update/condition code blocks
(`CodeBlock.get_free_symbols`, in `dace/properties.py`, external to the
provided sources, annotated here). -/
inductive SymBlock where
  | state (id : Nat) (usedSyms : List String)
  | region (id : Nat) (blocks : List SymBlock) (edges : List SymEdge)
      (sdfgSymbols : Option (List String))
  | loop (id : Nat) (blocks : List SymBlock) (edges : List SymEdge)
      (loopVar : String) (initFree : Option (List String))
      (updateFree : Option (List String)) (condFree : List String)

/-- The id of a block, used to look up its outgoing inter-state edges. -/
def SymBlock.bid : SymBlock → Nat
  | .state i _ => i
  | .region i _ _ _ => i
  | .loop i _ _ _ _ _ _ => i

/-- The data-container pull-in of lines 2797-2800: symbols of an edge that
name a data container contribute that container descriptor's own used
symbols.  `arrays` models `self.sdfg.arrays` as (name, used-symbols)
pairs. -/
def edgeEffectiveSyms (arrays : List (String × List String)) (efsyms : Finset String) :
    Finset String :=
  arrays.foldl (fun acc a => if a.1 ∈ efsyms then acc ∪ a.2.toFinset else acc) efsyms

/-- The per-edge update of lines 2791-2803, performed for each outgoing edge
of a block: newly defined symbols are the assignment keys minus the edge's
(effective) free symbols and the block's own symbols; symbols free on the
edge but not yet defined are used-before-assignment; the edge's free symbols
join the free set. -/
def processOutEdge (arrays : List (String × List String)) (stateSymbols : Finset String)
    (acc : Finset String × Finset String × Finset String) (e : SymEdge) :
    Finset String × Finset String × Finset String :=
  let (f, d, u) := acc
  let efsyms := edgeEffectiveSyms arrays e.freeSyms.toFinset
  let d := d ∪ (e.assignKeys.toFinset \ (efsyms ∪ stateSymbols))
  let u := u ∪ (efsyms \ d)
  let f := f ∪ efsyms
  (f, d, u)

/-- The finalization steps of `ControlFlowRegion._used_symbols_internal`
(lines 2805-2821) with `keep_defined_in_mapping = False` and no parent
nested-SDFG node: remove used-before-assignment symbols from the defined
set, add the SDFG symbol parameters to the free set when the region is an
SDFG and `all_symbols` holds, and subtract the defined set from the free
set. -/
def symFinalize (allSymbols : Bool) (sdfgSymbols : Option (List String))
    (acc : Finset String × Finset String × Finset String) :
    Finset String × Finset String × Finset String :=
  let (f, d, u) := acc
  let d := d \ u
  let f :=
    match sdfgSymbols with
    | some params => if allSymbols then f ∪ params.toFinset else f
    | none => f
  let f := f \ d
  (f, d, u)

/-- The loop-specific wrapping of `LoopRegion._used_symbols_internal` (lines
3100-3127) around the superclass analysis of the body (`bsub`): the loop
variable is defined from the start; the init/update/condition free symbols
join the free set; the body's used-before-assignment set, minus the loop
variable and the symbols already known defined from outside, joins the
region's; then the usual final subtractions. -/
def symLoopCore (loopVar : String) (initFree updateFree : Option (List String))
    (condFree : List String) (d f u : Finset String)
    (bsub : Finset String × Finset String × Finset String) :
    Finset String × Finset String × Finset String :=
  let d := insert loopVar d
  let f := match initFree with | some l => f ∪ l.toFinset | none => f
  let f := match updateFree with | some l => f ∪ l.toFinset | none => f
  let f := f ∪ condFree.toFinset
  let (bf, bd, bu) := bsub
  let outsideDefined := d \ u
  let u := u ∪ ((bu \ {loopVar}) \ outsideDefined)
  let f := f ∪ bf
  let d := d ∪ bd
  let d := d \ u
  let f := f \ d
  (f, d, u)

mutual

/-- The per-block body of the traversal loop of
`ControlFlowRegion._used_symbols_internal` (lines 2775-2803).  Python passes
the three symbol sets to a nested region's recursive call by reference and
the callee both mutates and returns those same set objects, so the
`free_syms |= b_free_syms` (etc.) merge lines after the call are identity
operations on the returned sets; the model therefore continues with the
returned sets directly.  A nested loop region runs `LoopRegion`'s override,
whose superclass call analyses the loop's own blocks with fresh sets (and
`isinstance(self, SDFG)` false). -/
def symProcessBlock (arrays : List (String × List String)) (allSymbols : Bool)
    (edges : List SymEdge) (acc : Finset String × Finset String × Finset String)
    (b : SymBlock) : Finset String × Finset String × Finset String :=
  let (f, d, u) := acc
  let (stateSymbols, f, d, u) :=
    match b with
    | .state _ syms => (syms.toFinset, f ∪ syms.toFinset, d, u)
    | .region _ bs es sdfgSyms =>
      let (bf, bd, bu) := symFinalize allSymbols sdfgSyms (symGoBlocks arrays allSymbols es (f, d, u) bs)
      (bf, bf, bd, bu)
    | .loop _ bs es lv initF updF condF =>
      let bsub := symFinalize allSymbols none (symGoBlocks arrays allSymbols es (∅, ∅, ∅) bs)
      let (bf, bd, bu) := symLoopCore lv initF updF condF d f u bsub
      (bf, bf, bd, bu)
  (edges.filter (fun e => e.src == b.bid)).foldl (processOutEdge arrays stateSymbols) (f, d, u)

/-- The traversal loop of `ControlFlowRegion._used_symbols_internal` over the
blocks in order.  `bfs_nodes(self.start_block)` (generic graph code, external
to the provided sources) determines that order; the model takes the block
list already in breadth-first order (the `except` failsafe of lines
2770-2773 uses `self.nodes()` directly). -/
def symGoBlocks (arrays : List (String × List String)) (allSymbols : Bool)
    (edges : List SymEdge) (acc : Finset String × Finset String × Finset String) :
    List SymBlock → Finset String × Finset String × Finset String
  | [] => acc
  | b :: rest =>
    symGoBlocks arrays allSymbols edges (symProcessBlock arrays allSymbols edges acc b) rest

end

/-- `ControlFlowRegion._used_symbols_internal` (lines 2760-2821): traverse
the blocks, then finalize. -/
def symRegionUSI (arrays : List (String × List String)) (allSymbols : Bool)
    (blocks : List SymBlock) (edges : List SymEdge) (sdfgSymbols : Option (List String))
    (d f u : Finset String) : Finset String × Finset String × Finset String :=
  symFinalize allSymbols sdfgSymbols (symGoBlocks arrays allSymbols edges (f, d, u) blocks)

/-- `LoopRegion._used_symbols_internal` (lines 3100-3127): the loop wrapping
around the superclass analysis of the loop's own blocks, run with fresh
sets. -/
def symLoopUSI (arrays : List (String × List String)) (allSymbols : Bool)
    (blocks : List SymBlock) (edges : List SymEdge) (loopVar : String)
    (initFree updateFree : Option (List String)) (condFree : List String)
    (d f u : Finset String) : Finset String × Finset String × Finset String :=
  symLoopCore loopVar initFree updateFree condFree d f u
    (symRegionUSI arrays allSymbols blocks edges none ∅ ∅ ∅)

/-- `ControlGraphView.used_symbols` (lines 1038-1039) for a loop region: the
free-symbol component of `_used_symbols_internal` called with fresh sets. -/
def loopUsedSymbols (arrays : List (String × List String)) (allSymbols : Bool)
    (blocks : List SymBlock) (edges : List SymEdge) (loopVar : String)
    (initFree updateFree : Option (List String)) (condFree : List String) : Finset String :=
  (symLoopUSI arrays allSymbols blocks edges loopVar initFree updateFree condFree ∅ ∅ ∅).1

/-- `ControlGraphView.used_symbols` (lines 1038-1039) for a plain control-flow
region. -/
def regionUsedSymbols (arrays : List (String × List String)) (allSymbols : Bool)
    (blocks : List SymBlock) (edges : List SymEdge) (sdfgSymbols : Option (List String)) :
    Finset String :=
  (symRegionUSI arrays allSymbols blocks edges sdfgSymbols ∅ ∅ ∅).1

end SY

/-! ## Concrete instances used by the theorems below -/

namespace DF

/-- A scope-entry node. -/
def exEntry : Node := ⟨0, NodeKind.entry⟩

/-- A code node (e.g. a tasklet). -/
def exTasklet : Node := ⟨1, NodeKind.code⟩

/-- A connector-less empty-memlet dependency edge from a scope entry to a
tasklet — the kind of edge `add_nedge(entry, dst, Memlet())` produces (this
file itself creates one at line 2213). -/
def exDepEdge : MEdge := ⟨0, exEntry, exTasklet, none, none, true⟩

/-- A state containing only the dependency edge. -/
def exDepGraph : DFGraph := ⟨[exDepEdge]⟩

/-- An access node feeding a map scope. -/
def exAccess : Node := ⟨2, NodeKind.access⟩

/-- A map-entry node. -/
def exMapEntry : Node := ⟨3, NodeKind.entry⟩

/-- A tasklet inside the map scope. -/
def exInnerTasklet : Node := ⟨4, NodeKind.code⟩

/-- An edge from the access node into the map entry on connector `IN_1`. -/
def exPathEdge1 : MEdge := ⟨1, exAccess, exMapEntry, none, some "IN_1", false⟩

/-- The matching edge out of the map entry on connector `OUT_1` into the
tasklet. -/
def exPathEdge2 : MEdge := ⟨2, exMapEntry, exInnerTasklet, some "OUT_1", some "t", false⟩

/-- A two-edge state whose only memlet path runs access → entry → tasklet. -/
def exPathGraph : DFGraph := ⟨[exPathEdge1, exPathEdge2]⟩

/-- An edge with no scope involvement (access node to code node). -/
def exPlainEdge : MEdge := ⟨3, exAccess, exInnerTasklet, none, some "t", false⟩

end DF

namespace RW

/-- A full-extent subset over ten elements. -/
def exFull : Subset := ⟨0, 9⟩

/-- A memlet writing (or reading) the full extent of container `A`. -/
def exFullMemlet : Memlet := ⟨"A", exFull, exFull, exFull, false⟩

/-- An access node for `A` that first receives a full-extent write and then
issues a full-extent read. -/
def exMaskedNode : SGNode := ⟨true, "A", [exFullMemlet], [exFullMemlet]⟩

/-- An access node in a data-independent subgraph that reads `A` without a
preceding write. -/
def exReaderNode : SGNode := ⟨true, "A", [], [exFullMemlet]⟩

end RW

namespace CF

/-- The block standing for the loop region `R` inside its parent graph. -/
def loopBlockC2 : Block := ⟨0, "R", BlockKind.loopRegion⟩

/-- The single body state `S` of the loop scenario. -/
def bodyStateC2 : Block := ⟨1, "S", BlockKind.state⟩

/-- The loop's own graph: just `S`. -/
def bodyC2 : Region := ⟨[bodyStateC2], [], none, none, false, 2⟩

/-- The parent graph `P`, containing only the loop region block. -/
def parentC2 : Region := ⟨[loopBlockC2], [], none, none, true, 10⟩

/-- The loop `R` = loop(init="i=0", cond="i<3", update="i=i+1") with body
`S`. -/
def loopC2 : LoopRegionModel :=
  ⟨"R", bodyC2, some [Stmt.assign "i" "0"], some [Stmt.assign "i" "i+1"], "i<3", false⟩

/-- The same loop with the inverted flag set. -/
def loopC2inv : LoopRegionModel := { loopC2 with inverted := true }

/-- The parent graph expected after inlining `loopC2`. -/
def parentC2Result : Region :=
  ⟨[⟨10, "R_init", BlockKind.state⟩, ⟨11, "R_guard", BlockKind.state⟩,
    ⟨12, "R_end", BlockKind.state⟩, ⟨13, "R_latch", BlockKind.state⟩,
    ⟨1, "R_S", BlockKind.state⟩],
   [⟨10, 11, Cond.always, [("i", "0")]⟩,
    ⟨13, 11, Cond.always, [("i", "i+1")]⟩,
    ⟨11, 12, Cond.negExpr "i<3", []⟩,
    ⟨11, 1, Cond.expr "i<3", []⟩,
    ⟨1, 13, Cond.always, []⟩],
   none, none, true, 14⟩

/-- The parent graph expected after inlining `loopC2inv`: identical except
that the init edge targets the body's start block `S` directly. -/
def parentC2ResultInv : Region :=
  { parentC2Result with
    edges := [⟨10, 1, Cond.always, [("i", "0")]⟩,
              ⟨13, 11, Cond.always, [("i", "i+1")]⟩,
              ⟨11, 12, Cond.negExpr "i<3", []⟩,
              ⟨11, 1, Cond.expr "i<3", []⟩,
              ⟨1, 13, Cond.always, []⟩] }

/-- A loop whose init statement holds a non-assignment statement (e.g. an
augmented assignment or an expression statement). -/
def badInitLoop : LoopRegionModel :=
  ⟨"L", bodyC2, some [Stmt.other "i += 1"], none, "i<3", false⟩

/-- A region with a unique source node. -/
def rUniqueSource : Region :=
  ⟨[⟨0, "A", BlockKind.state⟩, ⟨1, "B", BlockKind.state⟩],
   [⟨0, 1, Cond.always, []⟩], none, none, false, 2⟩

/-- A region with two source nodes and a manual start-block override. -/
def rOverride : Region :=
  ⟨[⟨0, "A", BlockKind.state⟩, ⟨1, "B", BlockKind.state⟩], [], some 1, none, false, 2⟩

/-- A region with two source nodes and no override. -/
def rAmbiguous : Region :=
  ⟨[⟨0, "A", BlockKind.state⟩, ⟨1, "B", BlockKind.state⟩], [], none, none, false, 2⟩

/-- Blocks `A`, `B`, `C` with an edge `A→C`, built through the mutation
API. -/
def c8Base : Region :=
  addEdge (addNode (addNode (addNode ⟨[], [], none, none, false, 3⟩
    ⟨0, "A", BlockKind.state⟩ false false) ⟨1, "B", BlockKind.state⟩ false false)
    ⟨2, "C", BlockKind.state⟩ false false) 0 2 Cond.always []

/-- `c8Base` after manually overriding the start block to `C` (which fills
the start-block cache with `C`). -/
def c8WithStart : Region :=
  match setStartBlock c8Base 2 with
  | .ok r => r
  | .error _ => c8Base

/-- `c8WithStart` after `add_edge(A, B)` — a structural mutation whose
destination is not the cached start block. -/
def c8Mutated : Region := addEdge c8WithStart 0 1 Cond.always []

end CF

/-! ## Helper lemmas -/

namespace DF

theorem notLeaf_isScope (n : Node) (h : isLeafNode n = false) : isScopeNode n = true := by
  cases n with
  | mk i k => cases k <;> simp_all [isLeafNode, isScopeNode]

theorem leaf_not_scope (n : Node) (h : isLeafNode n = true) : isScopeNode n = false := by
  cases n with
  | mk i k => cases k <;> simp_all [isLeafNode, isScopeNode]

/-- Whenever the backward trace of `memlet_path` succeeds, the first edge of
the produced path (or, if none was collected, the starting edge) has a code
or access node as its source: the loop only returns once that condition
holds. -/
theorem memletPathPrepend_headLeaf (g : DFGraph) :
    ∀ (fuel : Nat) (cur : MEdge) (acc l : List MEdge),
      memletPathPrepend g fuel cur acc = some l →
      (isLeafNode cur.src = true ∧ l = acc) ∨
      ∃ x rest, l = x :: rest ∧ isLeafNode x.src = true := by
  intro fuel
  induction fuel with
  | zero =>
    intro cur acc l h
    simp [memletPathPrepend] at h
  | succ n ih =>
    intro cur acc l h
    simp only [memletPathPrepend] at h
    split at h
    · rename_i hleaf
      cases h
      exact Or.inl ⟨hleaf, rfl⟩
    · split at h
      · cases h
      · rename_i c hc
        split at h
        · split at h
          · cases h
          · rename_i nxt hf
            rcases ih nxt (nxt :: acc) l h with ⟨hl, rfl⟩ | ⟨x, rest, rfl, hx⟩
            · exact Or.inr ⟨nxt, acc, rfl, hl⟩
            · exact Or.inr ⟨x, rest, rfl, hx⟩
        · cases h

/-- Whenever the forward trace of `memlet_path` succeeds in a graph obeying
the `IN_`-prefix connector invariant at scope nodes, the trace cannot exit
through the map-variable `break`, so the last edge of the produced path (or
the starting edge, if none was collected) has a code or access node as its
destination. -/
theorem memletPathAppend_lastLeaf (g : DFGraph)
    (hconn : ∀ f ∈ g.edges, isScopeNode f.dst = true →
      ∀ c, f.dstConn = some c → strStartsWith c "IN_" = true) :
    ∀ (fuel : Nat) (cur : MEdge) (acc l : List MEdge), cur ∈ g.edges →
      memletPathAppend g fuel cur acc = some l →
      (isLeafNode cur.dst = true ∧ l = acc) ∨
      ∃ pre x, l = pre ++ [x] ∧ isLeafNode x.dst = true := by
  intro fuel
  induction fuel with
  | zero =>
    intro cur acc l _ h
    simp [memletPathAppend] at h
  | succ n ih =>
    intro cur acc l hmem h
    simp only [memletPathAppend] at h
    split at h
    · rename_i hleaf
      cases h
      exact Or.inl ⟨hleaf, rfl⟩
    · rename_i hleaf
      split at h
      · cases h
      · rename_i c hc
        have hlf : isLeafNode cur.dst = false := Bool.not_eq_true _ |>.mp hleaf
        have hIN : strStartsWith c "IN_" = true :=
          hconn cur hmem (notLeaf_isScope _ hlf) c hc
        rw [if_neg (not_not_intro hIN)] at h
        split at h
        · cases h
        · rename_i nxt hf
          have hnmem : nxt ∈ g.edges := (List.mem_filter.mp (List.mem_of_find?_eq_some hf)).1
          rcases ih nxt (acc ++ [nxt]) l hnmem h with ⟨hl, rfl⟩ | ⟨pre, x, rfl, hx⟩
          · exact Or.inr ⟨acc, nxt, rfl, hl⟩
          · exact Or.inr ⟨pre, x, rfl, hx⟩

mutual

/-- The final `traverse` of `memlet_tree` only ever returns a node carrying
the queried edge. -/
theorem mtreeFind_rootEdge (z : MEdge) :
    ∀ (t t' : MTree), mtreeFind z t = some t' → rootEdge t' = z
  | .node e cs, t', h => by
    simp only [mtreeFind] at h
    split at h
    · next he =>
        cases h
        exact he
    · exact mtreeFindList_rootEdge z cs t' h

theorem mtreeFindList_rootEdge (z : MEdge) :
    ∀ (ts : List MTree) (t' : MTree), mtreeFindList z ts = some t' → rootEdge t' = z
  | [], t', h => by cases h
  | c :: rest, t', h => by
    simp only [mtreeFindList] at h
    split at h
    · cases h
      exact mtreeFind_rootEdge z c _ (by assumption)
    · exact mtreeFindList_rootEdge z rest t' h

end

mutual

/-- `traverse` finds a node for every edge contained in the tree. -/
theorem mtreeFind_of_mem (z : MEdge) :
    ∀ (t : MTree), z ∈ mtreeEdges t → ∃ t', mtreeFind z t = some t'
  | .node e cs, hmem => by
    by_cases he : e = z
    · exact ⟨MTree.node e cs, by simp [mtreeFind, he]⟩
    · simp only [mtreeEdges, List.mem_cons] at hmem
      rcases hmem with rfl | htail
      · exact absurd rfl he
      · obtain ⟨t', ht'⟩ := mtreeFindList_of_mem z cs htail
        exact ⟨t', by simp [mtreeFind, he, ht']⟩

theorem mtreeFindList_of_mem (z : MEdge) :
    ∀ (ts : List MTree), z ∈ mtreeEdgesList ts → ∃ t', mtreeFindList z ts = some t'
  | [], hmem => by cases hmem
  | c :: rest, hmem => by
    simp only [mtreeEdgesList, List.mem_append] at hmem
    rcases hfc : mtreeFind z c with _ | r
    · rcases hmem with hzc | hzrest
      · obtain ⟨t', ht'⟩ := mtreeFind_of_mem z c hzc
        rw [ht'] at hfc
        cases hfc
      · obtain ⟨t', ht'⟩ := mtreeFindList_of_mem z rest hzrest
        exact ⟨t', by simp [mtreeFindList, hfc, ht']⟩
    · exact ⟨r, by simp [mtreeFindList, hfc]⟩

end

end DF

namespace RW

/-- Folding set unions over the subgraph list distributes over the initial
accumulator. -/
theorem foldl_union_init (f : List SGNode → Finset String) :
    ∀ (st : StateSubgraphs) (init : Finset String),
      st.foldl (fun acc sg => acc ∪ f sg) init = init ∪ st.foldl (fun acc sg => acc ∪ f sg) ∅ := by
  intro st
  induction st with
  | nil => intro init; simp
  | cons sg rest ih =>
    intro init
    simp only [List.foldl_cons]
    rw [ih (init ∪ f sg), ih (∅ ∪ f sg)]
    simp [Finset.union_assoc]

/-- The per-state read set decomposes over the first concurrent subgraph. -/
theorem readSet_cons (sg : List SGNode) (st : StateSubgraphs) :
    readSet (sg :: st) = sgReadSet sg ∪ readSet st := by
  unfold readSet
  simp only [List.foldl_cons]
  rw [foldl_union_init]
  simp

/-- The per-state write set decomposes over the first concurrent subgraph. -/
theorem writeSet_cons (sg : List SGNode) (st : StateSubgraphs) :
    writeSet (sg :: st) = sgWriteSet sg ∪ writeSet st := by
  unfold writeSet
  simp only [List.foldl_cons]
  rw [foldl_union_init]
  simp

end RW

/-! ## Claim theorems -/

namespace DF

/-- C10: for every edge whose source and destination connectors are both
absent and whose memlet is empty, `memlet_path` returns the one-element list
containing exactly that edge, performing no scope-boundary tracing — even
when an endpoint of the edge is a scope entry or exit node (the statement
quantifies over arbitrary edges, including those). -/
theorem memletPath_empty_no_connector_identity
    (g : DFGraph) (fuel : Nat) (e : MEdge)
    (hsrc : e.srcConn = none) (hdst : e.dstConn = none) (hempty : e.dataEmpty = true) :
    memletPath g fuel e = some [e] := by
  unfold memletPath
  rw [hsrc, hdst, hempty]
  simp

/-- Witness for C10: the connector-less empty-memlet dependency edge out of a
scope-entry node is returned unchanged. -/
theorem memletPath_empty_no_connector_identity_witness :
    memletPath exDepGraph 4 exDepEdge = some [exDepEdge] :=
  memletPath_empty_no_connector_identity exDepGraph 4 exDepEdge rfl rfl rfl

/-- C5, counterexample: in a well-formed state a connector-less empty-memlet
dependency edge hanging off a scope-entry node (the very kind of edge this
file creates at line 2213) is a `memlet_path` result whose first edge's
source IS a scope entry node, contradicting the claim that the first edge's
source is always an access or code node. -/
theorem memletPath_endpoint_counterexample :
    memletPath exDepGraph 4 exDepEdge = some [exDepEdge] ∧
    isScopeNode exDepEdge.src = true ∧ isLeafNode exDepEdge.src = false := by
  refine ⟨?_, by decide, by decide⟩
  decide

/-- C5, amended: for every edge of a well-formed acyclic dataflow state in
which the path through the edge is unambiguous and whose scope-node incoming
connectors obey the `IN_`-prefix naming invariant, and which is not a
connector-less empty-memlet edge (those are returned as a one-element path
unchanged), `memlet_path` returns a list whose first edge's source and last
edge's destination are access or code nodes that are not themselves scope
entry or exit nodes. -/
theorem memletPath_endpoints_amended
    (g : DFGraph) (fuel : Nat) (e : MEdge) (p : List MEdge)
    (hconn : ∀ f ∈ g.edges, isScopeNode f.dst = true →
      ∀ c, f.dstConn = some c → strStartsWith c "IN_" = true)
    (he : e ∈ g.edges)
    (hne : ¬(e.srcConn = none ∧ e.dstConn = none ∧ e.dataEmpty = true))
    (hpath : memletPath g fuel e = some p) :
    (∃ first rest, p = first :: rest ∧ isLeafNode first.src = true ∧
      isScopeNode first.src = false) ∧
    (∃ last, p.getLast? = some last ∧ isLeafNode last.dst = true ∧
      isScopeNode last.dst = false) := by
  unfold memletPath at hpath
  split at hpath
  · rename_i hcond
    exfalso
    apply hne
    simp only [Bool.and_eq_true, beq_iff_eq] at hcond
    exact ⟨hcond.1.1, hcond.1.2, hcond.2⟩
  · split at hpath
    · rename_i pre post hpre hpost
      cases hpath
      constructor
      · rcases memletPathPrepend_headLeaf g fuel e [] pre hpre with ⟨hleaf, rfl⟩ | ⟨x, rest, rfl, hx⟩
        · exact ⟨e, post, rfl, hleaf, leaf_not_scope _ hleaf⟩
        · exact ⟨x, rest ++ e :: post, by simp, hx, leaf_not_scope _ hx⟩
      · rcases memletPathAppend_lastLeaf g hconn fuel e [] post he hpost with ⟨hleaf, rfl⟩ | ⟨pr, x, rfl, hx⟩
        · refine ⟨e, ?_, hleaf, leaf_not_scope _ hleaf⟩
          exact List.getLast?_concat pre
        · refine ⟨x, ?_, hx, leaf_not_scope _ hx⟩
          rw [show pre ++ e :: (pr ++ [x]) = (pre ++ e :: pr) ++ [x] by simp]
          exact List.getLast?_concat _
    · cases hpath

/-- Witness for the amended C5: the access → map-entry → tasklet path traced
from its first edge starts at the access node and ends at the tasklet. -/
theorem memletPath_endpoints_amended_witness :
    (∃ first rest, [exPathEdge1, exPathEdge2] = first :: rest ∧ isLeafNode first.src = true ∧
      isScopeNode first.src = false) ∧
    (∃ last, [exPathEdge1, exPathEdge2].getLast? = some last ∧ isLeafNode last.dst = true ∧
      isScopeNode last.dst = false) :=
  memletPath_endpoints_amended exPathGraph 4 exPathEdge1 [exPathEdge1, exPathEdge2]
    (by decide) (by decide) (by decide) (by decide)

end DF

namespace RW

/-- C1: `read_and_write_sets` applies write-masking per concurrent subgraph —
an access node all of whose outgoing reads of its container are covered by
incoming edges writing the same container over a covering index range
contributes the container only to the write set, not the read set; and the
per-subgraph results are unioned, so a second data-independent subgraph in
the same state that reads the container (without first writing it) still
makes the container appear in the state's read set. -/
theorem readAndWriteSets_write_masking_per_subgraph
    (A : SGNode) (rest : StateSubgraphs)
    (hacc : A.isAccess = true)
    (hmask : ∀ o ∈ A.outEdges, ∃ i ∈ A.inEdges,
      i.data = o.data ∧ i.dstSubset.covers o.srcSubset = true)
    (hwrite : ∃ i ∈ A.inEdges, i.isEmpty = false)
    (hread2 : A.data ∈ readSet rest) :
    A.data ∉ readSet [[A]] ∧ A.data ∈ writeSet [[A]] ∧
    A.data ∈ readSet ([A] :: rest) ∧ A.data ∈ writeSet ([A] :: rest) := by
  have hfilter : filteredOutEdges A = [] := by
    unfold filteredOutEdges
    apply List.filter_eq_nil_iff.mpr
    intro o ho
    obtain ⟨i, hi, hdata, hcov⟩ := hmask o ho
    have hany : A.inEdges.any (fun i => i.data == o.data && i.dstSubset.covers o.srcSubset) = true :=
      List.any_eq_true.mpr ⟨i, hi, by simp [hdata, hcov]⟩
    simp [hany]
  have hreads : nodeReads A = false := by
    unfold nodeReads
    rw [hfilter]
    simp
  have hwrites : nodeWrites A = true := by
    unfold nodeWrites
    rw [hacc]
    obtain ⟨i, hi, hie⟩ := hwrite
    simp only [Bool.true_and]
    exact List.any_eq_true.mpr ⟨i, hi, by simp [hie]⟩
  have hsgr : sgReadSet [A] = ∅ := by
    unfold sgReadSet
    simp [hreads]
  have hsgw : sgWriteSet [A] = {A.data} := by
    unfold sgWriteSet
    simp [hwrites]
  refine ⟨?_, ?_, ?_, ?_⟩
  · rw [show ([[A]] : StateSubgraphs) = [A] :: [] from rfl, readSet_cons, hsgr]
    simp [readSet]
  · rw [show ([[A]] : StateSubgraphs) = [A] :: [] from rfl, writeSet_cons, hsgw]
    simp [writeSet]
  · rw [readSet_cons, hsgr]
    simp [hread2]
  · rw [writeSet_cons, hsgw]
    exact Finset.mem_union_left _ (Finset.mem_singleton_self _)

/-- Witness for C1: container `A` is fully overwritten before being read in
the first subgraph (so masked there), while a second independent subgraph
reads it — `A` ends up in both the read and the write set of the state. -/
theorem readAndWriteSets_write_masking_witness :
    "A" ∉ readSet [[exMaskedNode]] ∧ "A" ∈ writeSet [[exMaskedNode]] ∧
    "A" ∈ readSet [[exMaskedNode], [exReaderNode]] ∧
    "A" ∈ writeSet [[exMaskedNode], [exReaderNode]] :=
  readAndWriteSets_write_masking_per_subgraph exMaskedNode [[exReaderNode]]
    rfl (by decide) (by decide) (by decide)

end RW

namespace SC

/-- C3: when unresolved nodes remain after the scope-dict traversal (a
non-empty leftover queue, or an assignment smaller than the node count), the
validated `scope_dict` checks for cycles and fails with the cycle error
naming the state and the cyclic nodes; with no cycle it fails with one of the
two internal-consistency errors; in either case it never returns a (partial)
mapping. -/
theorem scopeDict_unresolved_fails
    (label : String) (nodes : List Nat) (result : List (Nat × Option Nat))
    (eq : List Nat) (cycles : List (List Nat))
    (hun : eq ≠ [] ∨ result.length ≠ nodes.length) :
    (cycles ≠ [] →
      scopeDictValidated label true nodes result eq cycles = .error (.cyclic label cycles)) ∧
    (cycles = [] →
      scopeDictValidated label true nodes result eq cycles = .error (.leftoverQueue eq) ∨
      scopeDictValidated label true nodes result eq cycles =
        .error (.notProcessed (nodes.filter (fun n => !(result.any (fun p => p.1 == n)))))) ∧
    (∀ res, scopeDictValidated label true nodes result eq cycles ≠ .ok res) := by
  unfold scopeDictValidated
  rcases hun with hq | hlen
  · have h1 : (true && !eq.isEmpty) = true := by
      simp [List.isEmpty_iff, hq]
    rw [if_pos h1]
    refine ⟨fun hcy => ?_, fun hcy => ?_, fun res => ?_⟩
    · rw [if_pos (by simp [List.isEmpty_iff, hcy])]
    · rw [if_neg (by simp [hcy])]
      exact Or.inl rfl
    · split <;> simp
  · by_cases hq : eq = []
    · have h1 : (true && !eq.isEmpty) = false := by simp [hq]
      rw [if_neg (by simp [h1])]
      have h2 : (true && result.length != nodes.length) = true := by
        simp [hlen]
      rw [if_pos h2]
      refine ⟨fun hcy => ?_, fun hcy => ?_, fun res => ?_⟩
      · rw [if_pos (by simp [List.isEmpty_iff, hcy])]
      · rw [if_neg (by simp [hcy])]
        exact Or.inr rfl
      · split <;> simp
    · have h1 : (true && !eq.isEmpty) = true := by
        simp [List.isEmpty_iff, hq]
      rw [if_pos h1]
      refine ⟨fun hcy => ?_, fun hcy => ?_, fun res => ?_⟩
      · rw [if_pos (by simp [List.isEmpty_iff, hcy])]
      · rw [if_neg (by simp [hcy])]
        exact Or.inl rfl
      · split <;> simp

/-- Witness for C3: a state with two nodes, one assigned, a leftover queue
and a detected cycle fails with the cycle error naming the state. -/
theorem scopeDict_unresolved_fails_witness :
    scopeDictValidated "st" true [0, 1] [(0, none)] [1] [[0, 1]] =
      .error (.cyclic "st" [[0, 1]]) :=
  (scopeDict_unresolved_fails "st" [0, 1] [(0, none)] [1] [[0, 1]] (Or.inl (by decide))).1
    (by decide)

end SC

namespace CF

/-- C2: inlining the loop `R` = loop(init="i=0", cond="i<3", update="i=i+1")
with single body state `S` into its parent `P` succeeds and leaves `P` with
exactly the four new blocks (init, guard, end, latch) plus the original `S`
(relabeled `R_S`), and the edges init→guard carrying the init assignment,
latch→guard carrying the update assignment, guard→end under the negated
condition, guard→S under the condition, and S→latch; with the inverted flag
the init edge instead targets the body's start block `S` directly. -/
theorem loopRegion_inline_scenario :
    loopC2.inline parentC2 0 = some (true, some (10, 11, 12), parentC2Result) ∧
    loopC2inv.inline parentC2 0 = some (true, some (10, 11, 12), parentC2ResultInv) := by
  constructor <;> rfl

/-- C6: whenever the loop's init statement or update statement contains any
statement other than a plain assignment, `LoopRegion.inline` reports "not
applicable" — it returns an unsuccessful result instead of raising — and
performs no restructuring of the parent graph, which is returned
unchanged. -/
theorem loopRegion_inline_not_applicable
    (loop : LoopRegionModel) (parent : Region) (rid : Nat)
    (hbad : (∃ stmts, loop.initStatement = some stmts ∧ ∃ s ∈ stmts, s.isAssign = false) ∨
            (∃ stmts, loop.updateStatement = some stmts ∧ ∃ s ∈ stmts, s.isAssign = false)) :
    loop.inline parent rid = some (false, none, parent) := by
  have hpre : inlinePreconditionOk loop = false := by
    unfold inlinePreconditionOk
    rcases hbad with ⟨stmts, hs, s, hmem, hfalse⟩ | ⟨stmts, hs, s, hmem, hfalse⟩ <;> rw [hs] <;>
    · have hall : stmts.all Stmt.isAssign = false := by
        rcases hall : stmts.all Stmt.isAssign with _ | _
        · rfl
        · have h2 := List.all_eq_true.mp hall s hmem
          rw [hfalse] at h2
          exact absurd h2 (by simp)
      simp [hall]
  unfold LoopRegionModel.inline
  rw [hpre]
  rfl

/-- Witness for C6: a loop whose init statement holds an augmented assignment
is rejected and its parent left untouched. -/
theorem loopRegion_inline_not_applicable_witness :
    badInitLoop.inline parentC2 5 = some (false, none, parentC2) :=
  loopRegion_inline_not_applicable badInitLoop parentC2 5
    (Or.inl ⟨[Stmt.other "i += 1"], rfl, Stmt.other "i += 1", by decide, rfl⟩)

/-- C7: on a fresh query (no cached value), `start_block` yields the unique
source node when exactly one source exists; otherwise the manually overridden
block when an override was set; and when neither determines a block it fails
with the ambiguity error rather than returning a block. -/
theorem startBlock_resolution (r : Region) (hc : r.cachedStartBlock = none) :
    (∀ b, sourceNodes r = [b] → startBlock r = .ok b) ∧
    (∀ i b, (sourceNodes r).length ≠ 1 → r.startBlockIdx = some i →
      r.blocks[i]? = some b → startBlock r = .ok b) ∧
    ((sourceNodes r).length ≠ 1 → r.startBlockIdx = none →
      startBlock r = .error "Ambiguous or undefined starting block for ControlFlowGraph") := by
  refine ⟨?_, ?_, ?_⟩
  · intro b hb
    simp [startBlock, hc, hb]
  · intro i b hlen hidx hget
    rcases hsrc : sourceNodes r with _ | ⟨a, _ | ⟨a', t⟩⟩
    · simp [startBlock, hc, hsrc, hidx, hget]
    · exact absurd (by simp [hsrc]) hlen
    · simp [startBlock, hc, hsrc, hidx, hget]
  · intro hlen hidx
    rcases hsrc : sourceNodes r with _ | ⟨a, _ | ⟨a', t⟩⟩
    · simp [startBlock, hc, hsrc, hidx]
    · exact absurd (by simp [hsrc]) hlen
    · simp [startBlock, hc, hsrc, hidx]

/-- Witness for C7: the three concrete regions exercising the unique-source,
override, and failure cases. -/
theorem startBlock_resolution_witness :
    startBlock rUniqueSource = .ok ⟨0, "A", BlockKind.state⟩ ∧
    startBlock rOverride = .ok ⟨1, "B", BlockKind.state⟩ ∧
    startBlock rAmbiguous =
      .error "Ambiguous or undefined starting block for ControlFlowGraph" := by
  refine ⟨?_, ?_, ?_⟩
  · exact (startBlock_resolution rUniqueSource rfl).1 _ (by decide)
  · exact (startBlock_resolution rOverride rfl).2.1 1 _ (by decide) rfl (by decide)
  · exact (startBlock_resolution rAmbiguous rfl).2.2 (by decide) rfl

/-- C8, counterexample: `ControlFlowRegion.add_edge` does not clear the
cached start block when the new edge's destination differs from it.  With
blocks `A`, `B`, `C`, edge `A→C` and a manual override to `C`, adding the
edge `A→B` leaves the cache at `C`, so a `start_block` query after the
mutation observes `C` while a cache-free computation yields the now-unique
source `A` — a stale cached result observable after a structural
mutation. -/
theorem addEdge_stale_cached_start_block :
    c8Mutated.cachedStartBlock = some ⟨2, "C", BlockKind.state⟩ ∧
    startBlock c8Mutated = .ok ⟨2, "C", BlockKind.state⟩ ∧
    startBlock { c8Mutated with cachedStartBlock := none } =
      .ok ⟨0, "A", BlockKind.state⟩ := by
  refine ⟨rfl, rfl, rfl⟩

/-- C8, amended: every `SDFGState` mutation method (`add_node`,
`remove_node`, `add_edge`, `remove_edge`, `remove_edge_and_connectors`)
clears all four scope caches before returning, and
`ControlFlowRegion.add_node` clears the cached start block (re-filling it
with the new node when it is marked as start block); but
`ControlFlowRegion.add_edge` clears the cached start block only when the new
edge's destination is the cached block, leaving it untouched otherwise. -/
theorem mutations_clear_caches
    (s : SDFGStateModel) (n u v : Nat) (e : Nat × Nat)
    (r : Region) (b : Block) (src dst : Nat) (c : Cond) (a : List (String × String)) :
    scopeCachesCleared (stateAddNode s n) ∧
    scopeCachesCleared (stateRemoveNode s n) ∧
    scopeCachesCleared (stateAddEdge s u v) ∧
    scopeCachesCleared (stateRemoveEdge s e) ∧
    scopeCachesCleared (stateRemoveEdgeAndConnectors s e) ∧
    (addNode r b false false).cachedStartBlock = none ∧
    (addNode r b false true).cachedStartBlock = none ∧
    (addNode r b true false).cachedStartBlock = some b ∧
    (addEdge r src dst c a).cachedStartBlock =
      (match r.cachedStartBlock with
       | some cb => if cb.id == dst then none else some cb
       | none => none) := by
  refine ⟨⟨rfl, rfl, rfl, rfl⟩, ⟨rfl, rfl, rfl, rfl⟩, ⟨rfl, rfl, rfl, rfl⟩,
    ⟨rfl, rfl, rfl, rfl⟩, ⟨rfl, rfl, rfl, rfl⟩, rfl, rfl, rfl, ?_⟩
  rcases hcb : r.cachedStartBlock with _ | cb
  · simp [addEdge, hcb]
  · by_cases hid : (cb.id == dst) = true
    · simp [addEdge, hcb, hid]
    · simp only [Bool.not_eq_true] at hid
      simp [addEdge, hcb, hid]

end CF

namespace SY

/-- C4: for the loop region with loop variable `i`, init `i=0`, condition
`i<10`, update `i=i+1` and a body state referencing `i`,
`used_symbols(all_symbols=True)` does not contain `i` — the loop variable is
defined within the region and subtracted from the body's
used-before-assignment set — while a sibling region outside the loop whose
state references `i` reports `i` as a free symbol. -/
theorem loop_usedSymbols_scenario :
    "i" ∉ loopUsedSymbols [] true [SymBlock.state 0 ["i"]] [] "i" (some []) (some ["i"]) ["i"] ∧
    "i" ∈ regionUsedSymbols [] true [SymBlock.state 1 ["i"]] [] none := by
  constructor <;> decide

end SY
